import Mathlib

/-!
Verification of the itinerary synchronization and aggregation engine of the
tokyo_planner repository (src/db_setup.py and src/tokyo_planner.py).

The place store is a DuckDB table `t_places`; a row is modelled by
`PlaceRecord` with the nine columns of the schema created in
src/db_setup.py, in the column order of the `select` in
src/tokyo_planner.py lines 192-205.  DOUBLE columns are modelled by `ℚ`
(the coordinate literals are exact decimals), INTEGER by `ℤ`.
-/

namespace TokyoPlanner

/-- A row of the `t_places` table (src/db_setup.py lines 8-18), with the
fields in the order of the `select` at src/tokyo_planner.py lines 192-205. -/
structure PlaceRecord where
  place_id : String
  name : String
  address : String
  lat : ℚ
  lon : ℚ
  is_active : Bool
  day : String
  trip_order : ℤ
  category : String
deriving DecidableEq, Repr

/-- `TOKYO_CENTRE` constant, src/tokyo_planner.py line 20. -/
def TOKYO_CENTRE : ℚ × ℚ := (35.6814834559876, 139.7677621491435)

/-- The single row seeded by src/db_setup.py lines 21-29: only `name` and
`category` are given, every other column takes the schema default of
src/db_setup.py lines 8-18. -/
def seedRecord : PlaceRecord :=
  { place_id := ""
    name := "Tokyo Center"
    address := ""
    lat := 35.6814834559876
    lon := 139.7677621491435
    is_active := false
    day := ""
    trip_order := 1
    category := "sight-seeing" }

/-- A search suggestion as selected in the UI: the tuple
`(place_id, place_name, address, lat, lon)` built at
src/tokyo_planner.py lines 243-249. -/
structure Candidate where
  place_id : String
  place_name : String
  address : String
  lat : ℚ
  lon : ℚ
deriving DecidableEq, Repr

/-- The `new_entries` row constructed at src/tokyo_planner.py lines 260-274:
the candidate's identifying and geographic fields plus
`is_active = True, day = "", trip_order = 1, category = ""`. -/
def newEntry (c : Candidate) : PlaceRecord :=
  { place_id := c.place_id
    name := c.place_name
    address := c.address
    lat := c.lat
    lon := c.lon
    is_active := true
    day := ""
    trip_order := 1
    category := "" }

/-- The merge decision of src/tokyo_planner.py lines 259-281: if no stored
record has the candidate's `place_id` (the polars `filter(...).height == 0`
test at line 259), append the `new_entries` row (vertical concat, line 276)
and rebuild the table as `select distinct *` (lines 278-281); otherwise do
nothing.  `List.dedup` models `select distinct *` (it removes fully
duplicate rows; on a duplicate-free list it is the identity). -/
def mergeCandidate (s : List PlaceRecord) (c : Candidate) : List PlaceRecord :=
  if (s.filter (fun r => r.place_id == c.place_id)).length = 0 then
    (s ++ [newEntry c]).dedup
  else
    s

/-- State of the persisted store: either the `t_places` table with its rows,
or no table at all (the state between a committed `drop table` and the
following `create table`). -/
inductive StoreState where
  | table (rows : List PlaceRecord)
  | missing
deriving DecidableEq, Repr

/-- Run a list of SQL statements in order; DuckDB auto-commits each
statement separately, so each list element is one committed step. -/
def runStmts (stmts : List (StoreState → StoreState)) (st : StoreState) : StoreState :=
  stmts.foldl (fun s f => f s) st

/-- `drop table if exists t_places` (src/tokyo_planner.py lines 279, 437). -/
def dropTable : StoreState → StoreState := fun _ => .missing

/-- `create table t_places as select ...` materialising `rows`
(src/tokyo_planner.py lines 280, 438). -/
def createTableAs (rows : List PlaceRecord) : StoreState → StoreState :=
  fun _ => .table rows

/-- The two-statement write used by both the merge (lines 278-281) and the
end-of-run writeback (lines 436-439): drop, then create-as-select. -/
def replaceStmts (rows : List PlaceRecord) : List (StoreState → StoreState) :=
  [dropTable, createTableAs rows]

/-- The committed store state when execution stops (fails) after the first
`k` statements of the two-statement write have committed. -/
def stateAfterStmts (rows : List PlaceRecord) (prev : StoreState) (k : Nat) : StoreState :=
  runStmts ((replaceStmts rows).take k) prev

/-- A value a data-editor cell can take in the editable columns. -/
inductive CellValue where
  | str (s : String)
  | int (n : ℤ)
  | bool (b : Bool)
deriving DecidableEq, Repr

/-- Modelled from the spec: the change set delivered by an editing
interaction (spec §4.3) — the application of `edited_rows`/`deleted_rows`
to the record set happens inside the UI library, not in the repository
sources; only its caller (src/tokyo_planner.py lines 301-341, 436-439) is
in src/.  `edited_rows` maps a row position to column/new-value pairs,
`deleted_rows` lists row positions to remove. -/
structure ChangeSet where
  edited_rows : List (ℕ × List (String × CellValue))
  deleted_rows : List ℕ
deriving Repr

/-- Modelled from the spec: writing one new cell value into one record.
Per spec §3 (lifecycle), field edits touch `day`, `trip_order`, `category`
and `is_active` only — the other five columns are disabled in the editor's
column configuration (src/tokyo_planner.py lines 307-327). -/
def applyCell (r : PlaceRecord) (col : String) (v : CellValue) : PlaceRecord :=
  if col = "day" then
    match v with
    | .str s => { r with day := s }
    | _ => r
  else if col = "category" then
    match v with
    | .str s => { r with category := s }
    | _ => r
  else if col = "trip_order" then
    match v with
    | .int n => { r with trip_order := n }
    | _ => r
  else if col = "is_active" then
    match v with
    | .bool b => { r with is_active := b }
    | _ => r
  else r

/-- The lowest-numbered entry of `edited_rows`. -/
def lowestEdit : List (ℕ × List (String × CellValue)) →
    Option (ℕ × List (String × CellValue))
  | [] => none
  | e :: es =>
    match lowestEdit es with
    | none => some e
    | some a => if e.1 ≤ a.1 then some e else some a

/-- Modelled from the spec: one reconciliation pass (spec §4.3) — apply the
single selected change: the lowest-numbered edited row's first changed
column, or, when there is no pending edit, the first listed deleted row.
An empty change set leaves the set untouched; an out-of-range row position
is an invalid change: no mutation (`none` reports it). -/
def applyPass (rs : List PlaceRecord) (cs : ChangeSet) : Option (List PlaceRecord) :=
  match lowestEdit cs.edited_rows with
  | some (i, cols) =>
    match cols with
    | (col, v) :: _ =>
      if h : i < rs.length then
        some (rs.set i (applyCell (rs.get ⟨i, h⟩) col v))
      else none
    | [] => some rs
  | none =>
    match cs.deleted_rows with
    | i :: _ =>
      if i < rs.length then some (rs.eraseIdx i) else none
    | [] => some rs

/-- The record sets reachable by the program's operations: the initial
setup of src/db_setup.py, the merge of a candidate
(src/tokyo_planner.py lines 258-281), and the reconciliation writeback of
an edited view (lines 301-341, 436-439). -/
inductive Reachable : List PlaceRecord → Prop where
  | init : Reachable [seedRecord]
  | merge (c : Candidate) {s : List PlaceRecord} :
      Reachable s → Reachable (mergeCandidate s c)
  | edit (cs : ChangeSet) {s s' : List PlaceRecord} :
      Reachable s → applyPass s cs = some s' → Reachable s'

/-- A demo change set with two edited rows; the lowest-numbered one is row 0
and its first changed column is `is_active`. -/
def demoChangeSet : ChangeSet :=
  { edited_rows := [(1, [("day", CellValue.str "Friday"), ("trip_order", CellValue.int 2)]),
                    (0, [("is_active", CellValue.bool true)])]
    deleted_rows := [] }

/-- A demo candidate with a fresh identifier, for concrete instantiations. -/
def sensoji : Candidate :=
  { place_id := "pid-sensoji"
    place_name := "Sensoji"
    address := "2-3-1 Asakusa"
    lat := 35.7148
    lon := 139.7967 }

/-- A malformed candidate: its `place_id` is the empty string. -/
def emptyIdCandidate : Candidate :=
  { place_id := ""
    place_name := "Mystery Spot"
    address := ""
    lat := 35
    lon := 139 }

/-- A demo active record at (35, 139), for concrete instantiations. -/
def activeDemoRecord : PlaceRecord :=
  { place_id := "pid-demo"
    name := "Demo"
    address := ""
    lat := 35
    lon := 139
    is_active := true
    day := "Monday"
    trip_order := 1
    category := "" }

/-- The `order by day, trip_order` comparator of the query at
src/tokyo_planner.py line 135 (and lines 283-299): ascending by `day`,
then ascending by `trip_order`. -/
def dayTripLE (a b : PlaceRecord) : Bool :=
  decide (a.day < b.day) || (a.day == b.day && decide (a.trip_order ≤ b.trip_order))

/-- `select * from df order by day, trip_order` (src/tokyo_planner.py
line 135); the SQL sort is modelled as the stable merge sort. -/
def sortedByDayTrip (rs : List PlaceRecord) : List PlaceRecord :=
  rs.mergeSort dayTripLE

/-- The rows selected for one day: `pl_df.filter(pl.col("day") == day)`
(src/tokyo_planner.py lines 137-139) applied to the sorted frame. -/
def scheduleFor (rs : List PlaceRecord) (d : String) : List PlaceRecord :=
  (sortedByDayTrip rs).filter (fun r => r.day == d)

/-- One column of the polars `to_dict(as_series=False)` result. -/
inductive ColumnValues where
  | strs (l : List String)
  | rats (l : List ℚ)
deriving Repr

/-- `place_ids = ....select(["lat","lon","name","place_id"]).to_dict(as_series=False)`
(src/tokyo_planner.py lines 137-146): a dictionary with one key per
selected column, each holding that column's list of values. -/
def place_ids (rs : List PlaceRecord) (d : String) : List (String × ColumnValues) :=
  [("lat", .rats ((scheduleFor rs d).map (fun r => r.lat))),
   ("lon", .rats ((scheduleFor rs d).map (fun r => r.lon))),
   ("name", .strs ((scheduleFor rs d).map (fun r => r.name))),
   ("place_id", .strs ((scheduleFor rs d).map (fun r => r.place_id)))]

/-- `ids_count = len(place_ids)` (src/tokyo_planner.py line 148): the
length of the dictionary, i.e. its number of keys. -/
def ids_count (rs : List PlaceRecord) (d : String) : ℕ :=
  (place_ids rs d).length

/-- `col_count = ids_count * 2` (src/tokyo_planner.py line 149). -/
def col_count (rs : List PlaceRecord) (d : String) : ℕ :=
  ids_count rs d * 2

/-- The `(name, id, lat, lon)` tuples actually iterated by the rendering
loop: `zip` of the four column lists with the `st.columns(col_count)`
column objects (src/tokyo_planner.py lines 155-163); the columns are
modelled by their indices `List.range (col_count rs d)`, and `zip`
truncates to its shortest input. -/
def renderedPlaces (rs : List PlaceRecord) (d : String) : List (String × String × ℚ × ℚ) :=
  (((((scheduleFor rs d).map (fun r => r.name)).zip
        ((scheduleFor rs d).map (fun r => r.place_id))).zip
      (((scheduleFor rs d).map (fun r => r.lat)).zip
        ((scheduleFor rs d).map (fun r => r.lon)))).zip
    (List.range (col_count rs d))).map
    (fun x => (x.1.1.1, x.1.1.2, x.1.2.1, x.1.2.2))

/-- What one `make_schedule` pass renders. -/
inductive ScheduleRender where
  | noScheduleYet
  | placesRow (ps : List (String × String × ℚ × ℚ))
deriving Repr

/-- The rendering decision of `make_schedule` (src/tokyo_planner.py
lines 151-163): `match ids_count: case 0` writes "No schedule yet",
otherwise the zip loop renders the places. -/
def make_schedule (rs : List PlaceRecord) (d : String) : ScheduleRender :=
  match ids_count rs d with
  | 0 => .noScheduleYet
  | _ => .placesRow (renderedPlaces rs d)

/-- The active rows of the map query at src/tokyo_planner.py lines 346-360
(`where lat is not null and lon is not null and is_active`; coordinates are
never null in the model). -/
def activeRecords (rs : List PlaceRecord) : List PlaceRecord :=
  rs.filter (fun r => r.is_active)

/-- The map centre the program renders: the `center` argument of the
`st_folium` call (src/tokyo_planner.py lines 373-378) and the `location`
of the folium map (lines 208-211) are both the constant `TOKYO_CENTRE`,
independent of the record set. -/
def renderedMapCenter (_rs : List PlaceRecord) : ℚ × ℚ :=
  TOKYO_CENTRE

/-- Modelled from the spec: the map-center read-model of spec §4.4 (0 active
records → the Tokyo centroid constant; 1 → that record's coordinates;
otherwise the unweighted arithmetic mean).  No such computation exists in
src/; this definition follows the spec's words, for comparison with the
constant the code actually renders. -/
def specMapCenter (rs : List PlaceRecord) : ℚ × ℚ :=
  match activeRecords rs with
  | [] => TOKYO_CENTRE
  | [r] => (r.lat, r.lon)
  | act => ((act.map (fun r => r.lat)).sum / act.length,
            (act.map (fun r => r.lon)).sum / act.length)

/-- If some stored record already has the candidate's `place_id`, the merge
is the no-op branch of src/tokyo_planner.py line 259. -/
lemma mergeCandidate_of_mem (s : List PlaceRecord) (c : Candidate)
    (h : ∃ r ∈ s, r.place_id = c.place_id) : mergeCandidate s c = s := by
  obtain ⟨r, hr, hpid⟩ := h
  unfold mergeCandidate
  rw [if_neg]
  intro hlen
  have hmem : r ∈ s.filter (fun r => r.place_id == c.place_id) := by
    rw [List.mem_filter]
    exact ⟨hr, by simp [hpid]⟩
  rw [List.length_eq_zero] at hlen
  rw [hlen] at hmem
  exact List.not_mem_nil r hmem

/-- In the fresh-`place_id` branch the merge appends exactly the
`new_entries` row. -/
lemma mergeCandidate_insert (s : List PlaceRecord) (c : Candidate)
    (h1 : ∀ r ∈ s, r.place_id ≠ c.place_id)
    (h2 : (s.map (fun r => r.place_id)).Nodup) :
    mergeCandidate s c = s ++ [newEntry c] := by
  have hfilter : (s.filter (fun r => r.place_id == c.place_id)).length = 0 := by
    rw [List.length_eq_zero, List.filter_eq_nil_iff]
    intro r hr
    simp [h1 r hr]
  unfold mergeCandidate
  rw [if_pos hfilter]
  have hnodup : (s ++ [newEntry c]).Nodup := by
    rw [List.nodup_append]
    refine ⟨h2.of_map, List.nodup_singleton _, ?_⟩
    intro a ha hb
    rw [List.mem_singleton] at hb
    subst hb
    exact h1 _ ha rfl
  rw [List.dedup_eq_self.2 hnodup]

/-- C2: merging the same candidate twice yields the same record set as
merging it once, and if a record with the candidate's `place_id` already
exists, the merge leaves the store completely unchanged. -/
theorem merge_idempotent (s : List PlaceRecord) (c : Candidate) :
    mergeCandidate (mergeCandidate s c) c = mergeCandidate s c ∧
    ((∃ r ∈ s, r.place_id = c.place_id) → mergeCandidate s c = s) := by
  constructor
  · by_cases h : (s.filter (fun r => r.place_id == c.place_id)).length = 0
    · apply mergeCandidate_of_mem
      refine ⟨newEntry c, ?_, rfl⟩
      unfold mergeCandidate
      rw [if_pos h, List.mem_dedup]
      simp
    · have hs : mergeCandidate s c = s := by
        unfold mergeCandidate
        rw [if_neg h]
      rw [hs]
      unfold mergeCandidate
      rw [if_neg h]
  · exact mergeCandidate_of_mem s c

/-- Witness for C2 at the seeded store and the candidate whose `place_id`
equals the seed row's empty identifier. -/
theorem merge_idempotent_witness :
    mergeCandidate (mergeCandidate [seedRecord] emptyIdCandidate) emptyIdCandidate
      = mergeCandidate [seedRecord] emptyIdCandidate ∧
    mergeCandidate [seedRecord] emptyIdCandidate = [seedRecord] :=
  ⟨(merge_idempotent [seedRecord] emptyIdCandidate).1,
   (merge_idempotent [seedRecord] emptyIdCandidate).2
     ⟨seedRecord, List.mem_singleton_self _, rfl⟩⟩

/-- C5: merging a candidate whose `place_id` is not in the store appends
exactly one record with the candidate's fields and
`is_active = true, day = "", trip_order = 1, category = ""`, leaves the
pre-existing records unchanged, and the two-statement write persists the
resulting set. -/
theorem merge_insert_contract (s : List PlaceRecord) (c : Candidate)
    (h1 : ∀ r ∈ s, r.place_id ≠ c.place_id)
    (h2 : (s.map (fun r => r.place_id)).Nodup) :
    mergeCandidate s c =
      s ++ [{ place_id := c.place_id, name := c.place_name, address := c.address,
              lat := c.lat, lon := c.lon, is_active := true, day := "",
              trip_order := 1, category := "" }] ∧
    runStmts (replaceStmts (mergeCandidate s c)) (.table s)
      = .table (s ++ [newEntry c]) := by
  have h := mergeCandidate_insert s c h1 h2
  refine ⟨h, ?_⟩
  rw [h]
  rfl

/-- Witness for C5: inserting the demo candidate into the seeded store. -/
theorem merge_insert_contract_witness :
    mergeCandidate [seedRecord] sensoji =
      [seedRecord] ++
        [{ place_id := sensoji.place_id, name := sensoji.place_name,
           address := sensoji.address, lat := sensoji.lat, lon := sensoji.lon,
           is_active := true, day := "", trip_order := 1, category := "" }] ∧
    runStmts (replaceStmts (mergeCandidate [seedRecord] sensoji)) (.table [seedRecord])
      = .table ([seedRecord] ++ [newEntry sensoji]) :=
  merge_insert_contract [seedRecord] sensoji
    (by
      intro r hr
      rw [List.mem_singleton] at hr
      subst hr
      decide)
    (by decide)

/-- C7 counterexample: a write failure after the committed
`drop table if exists t_places` but before the `create table` leaves the
store with no table at all, not with the previous snapshot. -/
theorem writeback_not_atomic_counterexample :
    stateAfterStmts [] (.table [seedRecord]) 1 = .missing ∧
    stateAfterStmts [] (.table [seedRecord]) 1 ≠ .table [seedRecord] :=
  ⟨rfl, fun h => StoreState.noConfusion h⟩

/-- C7 amended: a failure before the drop leaves the previous snapshot, a
failure between the drop and the create leaves the store with no table
(the previous snapshot is lost), and only a completed write installs the
new set; every interrupted state is one of these two. -/
theorem writeback_failure_states (prev rows : List PlaceRecord) :
    (∀ k, k < 2 → stateAfterStmts rows (.table prev) k = .table prev ∨
        stateAfterStmts rows (.table prev) k = .missing) ∧
    stateAfterStmts rows (.table prev) 0 = .table prev ∧
    stateAfterStmts rows (.table prev) 1 = .missing ∧
    runStmts (replaceStmts rows) (.table prev) = .table rows := by
  refine ⟨?_, rfl, rfl, rfl⟩
  intro k hk
  interval_cases k
  · left; rfl
  · right; rfl

/-- Witness for C7's amended statement at the seeded store. -/
theorem writeback_failure_states_witness :
    stateAfterStmts [] (.table [seedRecord]) 1 = .table [seedRecord] ∨
    stateAfterStmts [] (.table [seedRecord]) 1 = .missing :=
  (writeback_failure_states [seedRecord] []).1 1 (by decide)

/-- C9 counterexample: on a store with no empty-identifier record, a
candidate whose `place_id` is the empty string is inserted — the merge
mutates the store instead of rejecting the malformed candidate (and the
code has no invalid-input report at all). -/
theorem merge_emptyId_counterexample :
    mergeCandidate [] emptyIdCandidate = [newEntry emptyIdCandidate] ∧
    mergeCandidate [] emptyIdCandidate ≠ [] := by
  constructor
  · rfl
  · intro h
    exact List.cons_ne_nil _ _ h

/-- C9 amended: a candidate with an empty `place_id` is treated like any
other candidate: the merge is a no-op iff some stored record already has
the empty `place_id` (such as the seed row), and otherwise the candidate
is inserted; no invalid-input condition is reported either way. -/
theorem merge_emptyId_amended (s : List PlaceRecord) (c : Candidate)
    (hc : c.place_id = "") :
    ((∃ r ∈ s, r.place_id = "") → mergeCandidate s c = s) ∧
    ((s.map (fun r => r.place_id)).Nodup → (∀ r ∈ s, r.place_id ≠ "") →
      mergeCandidate s c = s ++ [newEntry c]) := by
  constructor
  · intro h
    obtain ⟨r, hr, hpid⟩ := h
    exact mergeCandidate_of_mem s c ⟨r, hr, by rw [hpid, hc]⟩
  · intro h2 h3
    refine mergeCandidate_insert s c ?_ h2
    intro r hr
    rw [hc]
    exact h3 r hr

/-- Witness for C9's amended statement: on the seeded store the
empty-identifier candidate is a no-op. -/
theorem merge_emptyId_amended_witness :
    mergeCandidate [seedRecord] emptyIdCandidate = [seedRecord] :=
  (merge_emptyId_amended [seedRecord] emptyIdCandidate rfl).1
    ⟨seedRecord, List.mem_singleton_self _, rfl⟩

/-- C4: one reconciliation pass applies exactly one change: the
lowest-numbered edited row's first changed column is written into that row
and every other row is left untouched (all other pending edits stay
unapplied); with no pending edit, only the first listed deleted row is
removed. -/
theorem reconciler_one_change (rs : List PlaceRecord) (cs : ChangeSet)
    (i : ℕ) (col : String) (v : CellValue) (rest : List (String × CellValue))
    (he : lowestEdit cs.edited_rows = some (i, (col, v) :: rest))
    (hi : i < rs.length) :
    applyPass rs cs = some (rs.set i (applyCell (rs.get ⟨i, hi⟩) col v)) ∧
    (∀ j, j ≠ i → (rs.set i (applyCell (rs.get ⟨i, hi⟩) col v))[j]? = rs[j]?) ∧
    (∀ (cs' : ChangeSet) (k : ℕ) (t : List ℕ), cs'.edited_rows = [] →
      cs'.deleted_rows = k :: t → k < rs.length →
      applyPass rs cs' = some (rs.eraseIdx k)) := by
  refine ⟨?_, ?_, ?_⟩
  · unfold applyPass
    rw [he]
    simp [hi]
  · intro j hj
    exact List.getElem?_set_ne (Ne.symm hj)
  · intro cs' k t he' hd' hk
    unfold applyPass
    rw [he', hd']
    simp [hk, lowestEdit]

/-- Witness for C4: a change set with two edited rows only has its
lowest-numbered row's first changed column applied; a deletion change set
removes only its first listed row. -/
theorem reconciler_one_change_witness :
    applyPass [seedRecord, activeDemoRecord] demoChangeSet =
      some [{ seedRecord with is_active := true }, activeDemoRecord] ∧
    applyPass [seedRecord, activeDemoRecord]
        { edited_rows := [], deleted_rows := [0] } =
      some [activeDemoRecord] := by
  constructor
  · have h := (reconciler_one_change [seedRecord, activeDemoRecord] demoChangeSet 0
      "is_active" (CellValue.bool true) [] rfl (by decide)).1
    rw [h]
    rfl
  · have h := (reconciler_one_change [seedRecord, activeDemoRecord] demoChangeSet 0
      "is_active" (CellValue.bool true) [] rfl (by decide)).2.2
      { edited_rows := [], deleted_rows := [0] } 0 [] rfl rfl (by decide)
    rw [h]
    rfl

/-- Applying a cell edit never changes the record's `place_id` (the
identifier is not an editable column). -/
lemma applyCell_place_id (r : PlaceRecord) (col : String) (v : CellValue) :
    (applyCell r col v).place_id = r.place_id := by
  unfold applyCell
  split_ifs <;> cases v <;> rfl

/-- Replacing a row by a row with the same `place_id` does not change the
list of identifiers. -/
lemma map_place_id_set (rs : List PlaceRecord) (i : ℕ) (hi : i < rs.length)
    (r' : PlaceRecord) (hpid : r'.place_id = (rs.get ⟨i, hi⟩).place_id) :
    (rs.set i r').map (fun r => r.place_id) = rs.map (fun r => r.place_id) := by
  rw [List.map_set]
  apply List.ext_getElem?
  intro j
  rw [List.getElem?_set]
  split
  · rename_i hij
    subst hij
    rw [if_pos (by simpa using hi)]
    rw [List.getElem?_eq_getElem (by simpa using hi)]
    simp [hpid]
  · rfl

/-- The merge preserves uniqueness of identifiers. -/
lemma mergeCandidate_nodup (s : List PlaceRecord) (c : Candidate)
    (h : (s.map (fun r => r.place_id)).Nodup) :
    ((mergeCandidate s c).map (fun r => r.place_id)).Nodup := by
  unfold mergeCandidate
  split
  · rename_i hlen
    rw [List.length_eq_zero, List.filter_eq_nil_iff] at hlen
    have hsub : List.Sublist ((s ++ [newEntry c]).dedup.map (fun r => r.place_id))
        ((s ++ [newEntry c]).map (fun r => r.place_id)) :=
      (List.dedup_sublist _).map _
    apply List.Nodup.sublist hsub
    rw [List.map_append]
    rw [List.nodup_append]
    refine ⟨h, by simp, ?_⟩
    intro a ha hb
    simp only [List.map_cons, List.map_nil, List.mem_singleton] at hb
    rw [List.mem_map] at ha
    obtain ⟨r, hr, hrid⟩ := ha
    have := hlen r hr
    rw [hrid] at this
    rw [hb] at this
    simp [newEntry] at this
  · exact h

/-- One reconciliation pass preserves uniqueness of identifiers. -/
lemma applyPass_nodup (rs rs' : List PlaceRecord) (cs : ChangeSet)
    (h : applyPass rs cs = some rs')
    (hn : (rs.map (fun r => r.place_id)).Nodup) :
    (rs'.map (fun r => r.place_id)).Nodup := by
  unfold applyPass at h
  split at h
  · rename_i i cols heq
    split at h
    · rename_i col v rest heq2
      split at h
      · rename_i hi
        rw [Option.some_inj] at h
        subst h
        rw [map_place_id_set rs i hi _ (applyCell_place_id _ _ _)]
        exact hn
      · exact absurd h (by simp)
    · rw [Option.some_inj] at h
      subst h
      exact hn
  · split at h
    · rename_i k t heq2
      split at h
      · rw [Option.some_inj] at h
        subst h
        exact List.Nodup.sublist ((List.eraseIdx_sublist rs k).map _) hn
      · exact absurd h (by simp)
    · rw [Option.some_inj] at h
      subst h
      exact hn

/-- C1: in every state of the place store reachable by the program's
operations (initial setup, merge of a candidate, edit-reconciliation
writeback), no two records share the same `place_id`. -/
theorem place_id_unique_invariant (s : List PlaceRecord) (h : Reachable s) :
    (s.map (fun r => r.place_id)).Nodup := by
  induction h with
  | init => simp
  | merge c _ ih => exact mergeCandidate_nodup _ c ih
  | edit cs _ happ ih => exact applyPass_nodup _ _ cs happ ih

/-- Witness for C1 at a concrete reachable state: the seeded store after
merging the demo candidate. -/
theorem place_id_unique_invariant_witness :
    ((mergeCandidate [seedRecord] sensoji).map (fun r => r.place_id)).Nodup :=
  place_id_unique_invariant _ (Reachable.merge sensoji Reachable.init)

/-- C3 counterexample: with exactly one active record at (35, 139) the code
renders the map centred on the fixed `TOKYO_CENTRE` constant, not on that
record's coordinates as the claimed read-model requires. -/
theorem map_center_counterexample :
    renderedMapCenter [activeDemoRecord] = TOKYO_CENTRE ∧
    specMapCenter [activeDemoRecord] = (35, 139) ∧
    renderedMapCenter [activeDemoRecord] ≠ specMapCenter [activeDemoRecord] := by
  refine ⟨rfl, rfl, ?_⟩
  intro h
  rw [show renderedMapCenter [activeDemoRecord] = TOKYO_CENTRE from rfl,
    show specMapCenter [activeDemoRecord] = ((35 : ℚ), (139 : ℚ)) from rfl] at h
  have h1 := congrArg Prod.fst h
  simp only [TOKYO_CENTRE] at h1
  norm_num at h1

/-- C3 amended: for every record set the rendered map centre equals the
fixed Tokyo centroid constant, which agrees with the claimed read-model
only in the zero-active-records case. -/
theorem map_center_constant (rs : List PlaceRecord) :
    renderedMapCenter rs = TOKYO_CENTRE ∧
    (activeRecords rs = [] → renderedMapCenter rs = specMapCenter rs) := by
  refine ⟨rfl, fun h => ?_⟩
  unfold specMapCenter
  rw [h]
  rfl

/-- Witness for C3's amended statement: the seeded store has no active
record, where constant and read-model agree. -/
theorem map_center_constant_witness :
    renderedMapCenter [seedRecord] = specMapCenter [seedRecord] :=
  (map_center_constant [seedRecord]).2 rfl

/-- C8 (bug): for a day with no records, `ids_count` is the length of the
four-key column dictionary, never 0, so the `case 0` branch writing
"No schedule yet" is dead: the pass renders an empty row of places
instead of the explicit no-schedule state. -/
theorem empty_day_not_rendered :
    ids_count [] "Monday" = 4 ∧
    make_schedule [] "Monday" = .placesRow [] ∧
    make_schedule [] "Monday" ≠ .noScheduleYet := by
  have hsched : scheduleFor ([] : List PlaceRecord) "Monday" = [] := by
    simp [scheduleFor, sortedByDayTrip]
  have hrend : renderedPlaces [] "Monday" = [] := by
    simp [renderedPlaces, hsched]
  have h2 : make_schedule [] "Monday" = .placesRow [] := by
    show ScheduleRender.placesRow (renderedPlaces [] "Monday") = ScheduleRender.placesRow []
    rw [hrend]
  refine ⟨rfl, h2, ?_⟩
  intro h
  rw [h2] at h
  exact ScheduleRender.noConfusion h

/-- The zip of the four column lists of `L` with an arbitrary list of
column objects, projected back to the row tuples, is a prefix of `L`'s
rows truncated to the number of column objects. -/
lemma zip_cols_take : ∀ (L : List PlaceRecord) {β : Type} (cols : List β),
    ((((L.map (fun r => r.name)).zip (L.map (fun r => r.place_id))).zip
      ((L.map (fun r => r.lat)).zip (L.map (fun r => r.lon)))).zip cols).map
      (fun x => (x.1.1.1, x.1.1.2, x.1.2.1, x.1.2.2))
    = (L.map (fun r => (r.name, r.place_id, r.lat, r.lon))).take cols.length
  | [], _, cols => by simp
  | a :: L, _, [] => by simp
  | a :: L, _, b :: cols => by
    simp only [List.map_cons, List.zip_cons_cons, List.length_cons, List.take_succ_cons]
    rw [zip_cols_take L cols]

/-- C10: the rendering loop shows at most 8 places per day — the column
count is the doubled 4-key dictionary length, and the zip truncates the
day's ordered rows to those first 8 columns. -/
theorem schedule_render_cap (rs : List PlaceRecord) (d : String) :
    col_count rs d = 8 ∧
    renderedPlaces rs d =
      ((scheduleFor rs d).map (fun r => (r.name, r.place_id, r.lat, r.lon))).take 8 ∧
    (renderedPlaces rs d).length ≤ 8 := by
  have heq : renderedPlaces rs d =
      ((scheduleFor rs d).map (fun r => (r.name, r.place_id, r.lat, r.lon))).take 8 := by
    unfold renderedPlaces
    rw [zip_cols_take]
    rw [List.length_range]
    rfl
  refine ⟨rfl, heq, ?_⟩
  rw [heq, List.length_take]
  exact Nat.min_le_left _ _

/-- The day/trip comparator is transitive. -/
lemma dayTripLE_trans : ∀ a b c : PlaceRecord,
    dayTripLE a b → dayTripLE b c → dayTripLE a c := by
  intro a b c hab hbc
  simp only [dayTripLE, Bool.or_eq_true, Bool.and_eq_true, decide_eq_true_eq,
    beq_iff_eq] at hab hbc ⊢
  rcases hab with h1 | ⟨h1, h2⟩
  · rcases hbc with g1 | ⟨g1, g2⟩
    · exact Or.inl (lt_trans h1 g1)
    · exact Or.inl (lt_of_lt_of_eq h1 g1)
  · rcases hbc with g1 | ⟨g1, g2⟩
    · exact Or.inl (lt_of_eq_of_lt h1 g1)
    · exact Or.inr ⟨h1.trans g1, h2.trans g2⟩

/-- The day/trip comparator is total. -/
lemma dayTripLE_total : ∀ a b : PlaceRecord, dayTripLE a b || dayTripLE b a := by
  intro a b
  simp only [dayTripLE, Bool.or_eq_true, Bool.and_eq_true, decide_eq_true_eq,
    beq_iff_eq]
  rcases lt_trichotomy a.day b.day with h | h | h
  · exact Or.inl (Or.inl h)
  · rcases le_total a.trip_order b.trip_order with ht | ht
    · exact Or.inl (Or.inr ⟨h, ht⟩)
    · exact Or.inr (Or.inr ⟨h.symm, ht⟩)
  · exact Or.inr (Or.inl h)

/-- C6: a day's schedule contains exactly the records whose `day` equals
the requested day (records with `day = ""` are in no weekday's schedule),
sorted ascending by `trip_order`, and ties keep the original storage
order. -/
theorem schedule_day_grouping (rs : List PlaceRecord) (d : String) :
    List.Perm (scheduleFor rs d) (rs.filter (fun r => r.day == d)) ∧
    (∀ r ∈ scheduleFor rs d, r.day = d) ∧
    (scheduleFor rs d).Pairwise (fun a b => a.trip_order ≤ b.trip_order) ∧
    (∀ t : ℤ, (scheduleFor rs d).filter (fun r => r.trip_order == t) =
      rs.filter (fun r => r.day == d && r.trip_order == t)) := by
  refine ⟨?_, ?_, ?_, ?_⟩
  · exact (List.mergeSort_perm rs dayTripLE).filter _
  · intro r hr
    have := (List.mem_filter.mp hr).2
    simpa using this
  · have hsorted : (sortedByDayTrip rs).Pairwise (fun a b => dayTripLE a b) :=
      List.sorted_mergeSort dayTripLE_trans dayTripLE_total rs
    have hf : (scheduleFor rs d).Pairwise (fun a b => dayTripLE a b) :=
      List.Pairwise.sublist (List.filter_sublist _) hsorted
    refine List.Pairwise.imp_of_mem ?_ hf
    intro a b ha hb hab
    have hda : a.day = d := by simpa using (List.mem_filter.mp ha).2
    have hdb : b.day = d := by simpa using (List.mem_filter.mp hb).2
    simp only [dayTripLE, Bool.or_eq_true, Bool.and_eq_true, decide_eq_true_eq,
      beq_iff_eq] at hab
    rcases hab with h1 | ⟨h1, h2⟩
    · rw [hda, hdb] at h1
      exact absurd h1 (lt_irrefl d)
    · exact h2
  · intro t
    have hpair : (rs.filter (fun r => r.trip_order == t && r.day == d)).Pairwise
        (fun a b => dayTripLE a b) := by
      apply List.pairwise_of_forall_mem_list
      intro a ha b hb
      have ha' := (List.mem_filter.mp ha).2
      have hb' := (List.mem_filter.mp hb).2
      simp only [Bool.and_eq_true, beq_iff_eq] at ha' hb'
      simp only [dayTripLE, Bool.or_eq_true, Bool.and_eq_true, decide_eq_true_eq,
        beq_iff_eq]
      exact Or.inr ⟨ha'.2.trans hb'.2.symm, by rw [ha'.1, hb'.1]⟩
    have hsubl : List.Sublist (rs.filter (fun r => r.trip_order == t && r.day == d))
        (rs.mergeSort dayTripLE) :=
      List.sublist_mergeSort dayTripLE_trans dayTripLE_total hpair
        (List.filter_sublist rs)
    have hsub2 := hsubl.filter (fun r => r.trip_order == t && r.day == d)
    have hself : (rs.filter (fun r => r.trip_order == t && r.day == d)).filter
        (fun r => r.trip_order == t && r.day == d)
        = rs.filter (fun r => r.trip_order == t && r.day == d) := by
      rw [List.filter_eq_self]
      intro a ha
      exact (List.mem_filter.mp ha).2
    rw [hself] at hsub2
    have hlen : ((rs.mergeSort dayTripLE).filter
          (fun r => r.trip_order == t && r.day == d)).length
        = (rs.filter (fun r => r.trip_order == t && r.day == d)).length :=
      ((List.mergeSort_perm rs dayTripLE).filter _).length_eq
    have hEq := hsub2.eq_of_length hlen.symm
    show ((sortedByDayTrip rs).filter (fun r => r.day == d)).filter
        (fun r => r.trip_order == t) = _
    rw [List.filter_filter]
    unfold sortedByDayTrip
    rw [hEq.symm]
    apply List.filter_congr
    intro a _
    exact Bool.and_comm _ _

end TokyoPlanner
